import Mathlib

/-!
Verification of the quiz-matchmaking core (`GamesRepository` and its
collaborators).  The repository methods under `src/src/games/games.repository.ts`
are embedded as pure functions over an explicit relational `Store`; the
collaborators that are not part of the provided sources (the Progress Tracker,
the Question Selector use-cases, the Player-In-Game Checker and the service
that composes them) are modelled from the specification, each marked
`Modelled from the spec:` in its doc comment.
-/

namespace QuizGame

inductive GameStatus where
  | pending
  | active
  | finished
  deriving DecidableEq, Repr

structure Progress where
  id : Nat
  userId : Nat
  score : Nat
  answers : List Nat
  deriving DecidableEq, Repr

structure Game where
  id : Nat
  status : GameStatus
  firstPlayerProgressId : Option Nat
  secondPlayerProgressId : Option Nat
  createdAt : Nat
  startGameDate : Option Nat
  finishGameDate : Option Nat
  deriving DecidableEq, Repr

structure GameQuestion where
  gameId : Nat
  questionId : Nat
  order : Nat
  deriving DecidableEq, Repr

structure Question where
  id : Nat
  body : String
  deriving DecidableEq, Repr

structure User where
  id : Nat
  login : String
  deriving DecidableEq, Repr

/-- The relational store.  Row lists are kept in insertion order (new rows are
appended), matching the creation order of the generated ids. -/
structure Store where
  games : List Game
  progresses : List Progress
  gameQuestions : List GameQuestion
  questions : List Question
  users : List User
  nextProgressId : Nat
  nextGameId : Nat
  deriving DecidableEq, Repr

def lookupProgress (s : Store) (pid : Nat) : Option Progress :=
  s.progresses.find? (fun p => p.id == pid)

def lookupGame (s : Store) (gid : Nat) : Option Game :=
  s.games.find? (fun g => g.id == gid)

def lookupUser (s : Store) (uid : Nat) : Option User :=
  s.users.find? (fun u => u.id == uid)

def lookupQuestion (s : Store) (qid : Nat) : Option Question :=
  s.questions.find? (fun q => q.id == qid)

def newProgress (s : Store) (uid : Nat) : Progress :=
  ⟨s.nextProgressId, uid, 0, []⟩

/-- Modelled from the spec: `createProgress(userId)` of the Progress Tracker
(`ProgressesRepository.createProgress`, not under `src/`): initializes
`score = 0` and an empty answer sequence, with no game linkage. -/
def createProgress (s : Store) (uid : Nat) : Progress × Store :=
  (newProgress s uid,
   { s with progresses := s.progresses ++ [newProgress s uid],
            nextProgressId := s.nextProgressId + 1 })

/-- The configured size of a game's question set (spec: "5 (or configured
count)"). -/
def gameQuestionsCount : Nat := 5

/-- Modelled from the spec: `drawQuestions(count)` of the Question Selector
(`GetRandomQuestionsForGameUseCase`, not under `src/`): draws a fixed-size set
of distinct questions from the pool, failing (`InsufficientQuestions`) when the
pool is smaller than the configured count; the random sampling order is
abstracted as the initial segment of the pool. -/
def drawQuestions (s : Store) : Option (List Question) :=
  if gameQuestionsCount ≤ s.questions.length then
    some (s.questions.take gameQuestionsCount)
  else none

/-- Modelled from the spec: `assignQuestions(gameId, questions)` of the
Question Selector (`SetRandomQuestionsForGameUseCase`, not under `src/`):
persists the GameQuestion associations with `order` equal to the 0-indexed draw
position, in a single batch write.  The spec's `DuplicateAssignment` check is
a read of the game's existing rows; this definition encodes the commit of a
call whose check has already passed.  Under the stale-snapshot interleavings
modelled by the race theorems the check ran against a state with no
assignment, so the batch lands even when another assignment committed in
between; a sequential call whose check sees a committed assignment fails
beforehand and never reaches this write.  In every state reachable via the
matchmaking flows the call is a first assignment, where this definition and
the checked collaborator coincide. -/
def assignQuestions (s : Store) (gid : Nat) (qs : List Question) : Store :=
  { s with gameQuestions :=
      s.gameQuestions ++ qs.enum.map (fun iq => ⟨gid, iq.2.id, iq.1⟩) }

def progressSlotHasUser (s : Store) (slot : Option Nat) (uid : Nat) : Bool :=
  match slot with
  | none => false
  | some pid =>
    match lookupProgress s pid with
    | none => false
    | some p => p.userId == uid

/-- Modelled from the spec: `isUserInOpenGame(userId)` of the Player-In-Game
Checker (`CheckPalyerInGameUseCase`, not under `src/`): true when the user is
referenced, via either progress slot, by a game in pending or active status. -/
def isUserInOpenGame (s : Store) (uid : Nat) : Bool :=
  s.games.any (fun g =>
    (g.status == GameStatus.pending || g.status == GameStatus.active) &&
    (progressSlotHasUser s g.firstPlayerProgressId uid ||
     progressSlotHasUser s g.secondPlayerProgressId uid))

/-- Embeds `GamesRepository.getGameInPendingSecondPalyer` (src lines 31-62):
selects a row with `status = pending AND firstPlayerProgressId IS NOT NULL`
together with the first player's `userId` resolved by subquery.  The source
query has no ORDER BY, so it computes no selection order of its own;
`getRawOne` is embedded as the first matching row in the store's physical row
order, which fixes one admissible database answer per store — the selected
row is therefore a function of the row order, not of the stored data. -/
def getGameInPendingSecondPalyer (s : Store) : Option (Game × Option Nat) :=
  match s.games.find?
      (fun g => g.status == GameStatus.pending && g.firstPlayerProgressId.isSome) with
  | none => none
  | some g =>
    some (g, g.firstPlayerProgressId.bind
      (fun pid => (lookupProgress s pid).map Progress.userId))

/-- The result of loading a game with its `questions`, `firstPlayerProgress`
and `secondPlayerProgress` relations.  The nested `user` of each progress and
the nested `question` of each association row are resolved at view-building
time (the entity definitions are not under `src/`; the spec says the extended
read includes the question rows and "both progress records with their owning
users"). -/
structure ExtendedGame where
  game : Game
  questionRows : List GameQuestion
  firstPlayerProgress : Option Progress
  secondPlayerProgress : Option Progress
  deriving DecidableEq, Repr

/-- Embeds `GamesRepository.getExtendedGameById` (src lines 284-303): `findOne`
on the game id with the `questions`, `firstPlayerProgress` and
`secondPlayerProgress` relations loaded. -/
def getExtendedGameById (s : Store) (gid : Nat) : Option ExtendedGame :=
  match lookupGame s gid with
  | none => none
  | some g =>
    some ⟨g,
      s.gameQuestions.filter (fun q => q.gameId == gid),
      g.firstPlayerProgressId.bind (fun pid => lookupProgress s pid),
      g.secondPlayerProgressId.bind (fun pid => lookupProgress s pid)⟩

/-- The function applied to every game row by the `UPDATE ... WHERE id = :id`
of `connectToGame`: the row whose id matches is rewritten, every other row is
kept. -/
def activateRow (gid pid t : Nat) (g : Game) : Game :=
  if g.id == gid then
    { g with secondPlayerProgressId := some pid,
             startGameDate := some t,
             status := GameStatus.active }
  else g

/-- Embeds the update of `connectToGame` (src lines 146-157): an unconditional
`UPDATE ... SET secondPlayerProgressId, startGameDate, status = active WHERE
id = :id`; note the absence of any `status = pending` or
`secondPlayerProgressId IS NULL` condition. -/
def updateGameToActive (s : Store) (gid pid t : Nat) : Store :=
  { s with games := s.games.map (activateRow gid pid t) }

structure QuestionView where
  id : Nat
  body : String
  deriving DecidableEq, Repr

structure PlayerView where
  id : Nat
  login : String
  deriving DecidableEq, Repr

structure ProgressView where
  answers : List Nat
  player : PlayerView
  score : Nat
  deriving DecidableEq, Repr

structure GameView where
  id : Nat
  questions : Option (List QuestionView)
  status : GameStatus
  firstPlayerProgress : Option ProgressView
  secondPlayerProgress : Option ProgressView
  pairCreatedDate : Nat
  startGameDate : Option Nat
  finishGameDate : Option Nat
  deriving DecidableEq, Repr

def insertByOrder (q : GameQuestion) : List GameQuestion → List GameQuestion
  | [] => [q]
  | x :: xs => if q.order < x.order then q :: x :: xs else x :: insertByOrder q xs

/-- Embeds the `sort((a, b) => a.order - b.order)` of `connectToGame` (src line
167): a stable ascending sort on the `order` field. -/
def sortByOrder (l : List GameQuestion) : List GameQuestion :=
  l.foldr insertByOrder []

def questionViewOfRow (s : Store) (row : GameQuestion) : Option QuestionView :=
  (lookupQuestion s row.questionId).map (fun q => ⟨row.questionId, q.body⟩)

/-- Builds the `firstPlayerProgress` / `secondPlayerProgress` part of the view
(src lines 177-192): answers are the literal `[]`, `player.id` is the progress
id and `player.login` the owning user's login; a missing progress or user is
the TypeError path, caught by the surrounding `catch`. -/
def progressViewOf (s : Store) (op : Option Progress) : Option ProgressView :=
  match op with
  | none => none
  | some p => (lookupUser s p.userId).map (fun u => ⟨[], ⟨p.id, u.login⟩, p.score⟩)

/-- Builds the success response of `connectToGame` (src lines 166-196). -/
def buildConnectView (s : Store) (eg : ExtendedGame) : Option GameView :=
  match (sortByOrder eg.questionRows).mapM (fun row => questionViewOfRow s row),
        progressViewOf s eg.firstPlayerProgress,
        progressViewOf s eg.secondPlayerProgress with
  | some qvs, some fp, some sp =>
    some ⟨eg.game.id, some qvs, eg.game.status, some fp, some sp,
          eg.game.createdAt, eg.game.startGameDate, eg.game.finishGameDate⟩
  | _, _, _ => none

/-- Builds the success response of `createGame` (src lines 230-246):
`questions` and `secondPlayerProgress` are the literal `null`. -/
def buildCreateView (s : Store) (eg : ExtendedGame) : Option GameView :=
  match progressViewOf s eg.firstPlayerProgress with
  | none => none
  | some fp =>
    some ⟨eg.game.id, none, eg.game.status, some fp, none,
          eg.game.createdAt, eg.game.startGameDate, eg.game.finishGameDate⟩

/-- The observable outcome of a repository call: `thrown` is the
`HttpException` path of the `catch` blocks, `nullGame` the literal `null`
return, `ok` the assembled response. -/
inductive ConnectResult where
  | thrown
  | nullGame
  | ok (v : GameView)
  deriving DecidableEq, Repr

def connectResultView (s : Store) (gid : Nat) : ConnectResult :=
  match getExtendedGameById s gid with
  | none => ConnectResult.nullGame
  | some eg =>
    match buildConnectView s eg with
    | none => ConnectResult.thrown
    | some v => ConnectResult.ok v

/-- Embeds `GamesRepository.connectToGame` (src lines 134-203): create a
progress for the joining user, draw a question set, persist the associations,
unconditionally update the game row to active, then re-read the game and build
the response; a `null` re-read returns `null` with the earlier writes already
applied, and a thrown error leaves the earlier writes in place (no
transaction). -/
def connectToGame (s : Store) (uid gid t : Nat) : ConnectResult × Store :=
  match drawQuestions (createProgress s uid).2 with
  | none => (ConnectResult.thrown, (createProgress s uid).2)
  | some qs =>
    (connectResultView
      (updateGameToActive (assignQuestions (createProgress s uid).2 gid qs)
        gid (createProgress s uid).1.id t) gid,
     updateGameToActive (assignQuestions (createProgress s uid).2 gid qs)
       gid (createProgress s uid).1.id t)

def newGame (s : Store) (pid t : Nat) : Game :=
  ⟨s.nextGameId, GameStatus.pending, some pid, none, t, none, none⟩

def createResultView (s : Store) (gid : Nat) : ConnectResult :=
  match getExtendedGameById s gid with
  | none => ConnectResult.nullGame
  | some eg =>
    match buildCreateView s eg with
    | none => ConnectResult.thrown
    | some v => ConnectResult.ok v

/-- Embeds `GamesRepository.createGame` (src lines 205-253): create a progress
for the user, insert a pending game referencing it, re-read and build the
response.  The source's `if (!firstUserProgress) return null` branch is dead in
the model because `createProgress` always returns the created record. -/
def createGame (s : Store) (uid t : Nat) : ConnectResult × Store :=
  let ps := createProgress s uid
  let s2 := { ps.2 with games := ps.2.games ++ [newGame ps.2 ps.1.id t],
                        nextGameId := ps.2.nextGameId + 1 }
  (createResultView s2 ps.2.nextGameId, s2)

/-- The outcome of a matchmaking request at the service boundary: `conflict`
is the `ParticipationConflict` rejection of the admission gate. -/
inductive FlowResult where
  | conflict
  | thrown
  | nullGame
  | ok (v : GameView)
  deriving DecidableEq, Repr

def liftResult : ConnectResult × Store → FlowResult × Store
  | (ConnectResult.thrown, s) => (FlowResult.thrown, s)
  | (ConnectResult.nullGame, s) => (FlowResult.nullGame, s)
  | (ConnectResult.ok v, s) => (FlowResult.ok v, s)

/-- Modelled from the spec: the Matchmaker control flow of a join request (the
NestJS service composing the use cases is not under `src/`): Player-In-Game
Checker gate, then search for a pending game, then either connect to it or
create a fresh pending game. -/
def joinFlow (s : Store) (uid t : Nat) : FlowResult × Store :=
  if isUserInOpenGame s uid then (FlowResult.conflict, s)
  else
    match getGameInPendingSecondPalyer s with
    | some gp => liftResult (connectToGame s uid gp.1.id t)
    | none => liftResult (createGame s uid t)

/-- Modelled from the spec: `createGame(userId)` at the service boundary fails
with `ParticipationConflict` if the user already has an active or pending game
(delegated to the Player-In-Game Checker, not under `src/`). -/
def createGameFlow (s : Store) (uid t : Nat) : FlowResult × Store :=
  if isUserInOpenGame s uid then (FlowResult.conflict, s)
  else liftResult (createGame s uid t)

/-- An initial store: no games, no progresses, no question assignments, and an
arbitrary fixed question pool and user table (read-only reference data). -/
def initStore (pool : List Question) (users : List User) : Store :=
  ⟨[], [], [], pool, users, 0, 0⟩

/-- One matchmaking step: some user issues a create or a join request. -/
inductive Step : Store → Store → Prop where
  | create (s : Store) (uid t : Nat) : Step s (createGameFlow s uid t).2
  | join (s : Store) (uid t : Nat) : Step s (joinFlow s uid t).2

/-- The states reachable from an initial store via createGame and joinGame
requests. -/
inductive Reachable : Store → Prop where
  | init (pool : List Question) (users : List User) : Reachable (initStore pool users)
  | step (s s2 : Store) : Reachable s → Step s s2 → Reachable s2

/-- A fixed five-question pool used by the concrete scenarios. -/
def pool5 : List Question :=
  [⟨100, "q0"⟩, ⟨101, "q1"⟩, ⟨102, "q2"⟩, ⟨103, "q3"⟩, ⟨104, "q4"⟩]

/-- A two-question pool, smaller than the configured count. -/
def pool2 : List Question := [⟨100, "q0"⟩, ⟨101, "q1"⟩]

def demoUsers : List User := [⟨1, "a"⟩, ⟨2, "b"⟩, ⟨3, "c"⟩, ⟨5, "e"⟩]

/-- User 1 has created a game: game 0 is pending with progress 0 bound. -/
def demoStore1 : Store := (createGameFlow (initStore pool5 demoUsers) 1 10).2

/-- User 2 has joined game 0: it is active with progress 1 as second player. -/
def demoStore2 : Store := (joinFlow demoStore1 2 11).2

/-- Same pending game as `demoStore1` but over a pool of only two questions. -/
def demoStoreSmallPool : Store := (createGameFlow (initStore pool2 demoUsers) 1 10).2

/-- First leg of the race: user 2 joins pending game 0 (snapshot taken from
`demoStore1`). -/
def raceCall1 : ConnectResult × Store := connectToGame demoStore1 2 0 11

/-- Second leg of the race: user 3, holding the same stale pending snapshot of
game 0, joins after user 2's write has landed. -/
def raceCall2 : ConnectResult × Store := connectToGame raceCall1.2 3 0 12

/-- A pending game created at time 5, first player progress 0 bound. -/
def twoPendingA : Game := ⟨0, GameStatus.pending, some 0, none, 5, none, none⟩

/-- A pending game created at time 6, first player progress 1 bound. -/
def twoPendingB : Game := ⟨1, GameStatus.pending, some 1, none, 6, none, none⟩

/-- The same database contents — two open pending games — in one physical row
order... -/
def rowOrderStore1 : Store :=
  ⟨[twoPendingA, twoPendingB], [⟨0, 1, 0, []⟩, ⟨1, 2, 0, []⟩], [],
   pool5, demoUsers, 2, 2⟩

/-- ...and in the other physical row order. -/
def rowOrderStore2 : Store :=
  ⟨[twoPendingB, twoPendingA], [⟨0, 1, 0, []⟩, ⟨1, 2, 0, []⟩], [],
   pool5, demoUsers, 2, 2⟩

/-- A join attempt over the two-question pool: the Question Selector fails. -/
def orphanCall : ConnectResult × Store := connectToGame demoStoreSmallPool 2 0 11

/-- A join attempt against game id 99, which no game row carries. -/
def ghostCall : ConnectResult × Store := connectToGame demoStore1 2 99 11

/-- The store well-formedness invariant maintained by the matchmaking flows:
fresh row ids are really fresh and unique, every game has a bound first
player, the second slot is bound exactly on active or finished games, progress
links resolve, and the two players of an active game differ. -/
structure Inv (s : Store) : Prop where
  gamesNodup : (s.games.map Game.id).Nodup
  gamesLt : ∀ g ∈ s.games, g.id < s.nextGameId
  progNodup : (s.progresses.map Progress.id).Nodup
  progLt : ∀ p ∈ s.progresses, p.id < s.nextProgressId
  firstSome : ∀ g ∈ s.games, g.firstPlayerProgressId.isSome
  secondIff : ∀ g ∈ s.games,
    (g.secondPlayerProgressId.isSome ↔
      (g.status = GameStatus.active ∨ g.status = GameStatus.finished))
  linksResolve : ∀ g ∈ s.games, ∀ pid,
    (g.firstPlayerProgressId = some pid ∨ g.secondPlayerProgressId = some pid) →
    ∃ p ∈ s.progresses, p.id = pid
  activeDistinct : ∀ g ∈ s.games, g.status = GameStatus.active →
    ∀ pid1 pid2 p1 p2, g.firstPlayerProgressId = some pid1 →
      g.secondPlayerProgressId = some pid2 →
      lookupProgress s pid1 = some p1 → lookupProgress s pid2 = some p2 →
      p1.userId ≠ p2.userId

def ConnectResult.isOk : ConnectResult → Bool
  | ConnectResult.ok _ => true
  | _ => false

def FlowResult.isOk : FlowResult → Bool
  | FlowResult.ok _ => true
  | _ => false

section ListLemmas

variable {α : Type} {f : α → Bool} {l l1 l2 : List α} {a : α}

lemma find?_append_some (h : l1.find? f = some a) :
    (l1 ++ l2).find? f = some a := by
  induction l1 with
  | nil => simp [List.find?] at h
  | cons x xs ih =>
    rw [List.cons_append, List.find?]
    rw [List.find?] at h
    cases hx : f x with
    | true => rw [hx] at h; simpa [hx] using h
    | false => rw [hx] at h; simpa [hx] using ih h

lemma find?_append_none (h : l1.find? f = none) :
    (l1 ++ l2).find? f = l2.find? f := by
  induction l1 with
  | nil => simp
  | cons x xs ih =>
    rw [List.find?] at h
    cases hx : f x with
    | true => rw [hx] at h; simp at h
    | false =>
      rw [hx] at h
      rw [List.cons_append, List.find?, hx]
      exact ih h

lemma exists_find?_of_mem (ha : a ∈ l) (hfa : f a = true) :
    ∃ b, l.find? f = some b ∧ f b = true := by
  induction l with
  | nil => simp at ha
  | cons x xs ih =>
    rw [List.find?]
    cases hx : f x with
    | true => exact ⟨x, rfl, hx⟩
    | false =>
      rcases List.mem_cons.1 ha with rfl | hmem
      · rw [hx] at hfa; exact absurd hfa (by simp)
      · exact ih hmem

lemma find?_map_comm {u : α → α} (hu : ∀ x, f (u x) = f x) (l : List α) :
    (l.map u).find? f = (l.find? f).map u := by
  induction l with
  | nil => simp
  | cons x xs ih =>
    rw [List.map_cons, List.find?, List.find?, hu x]
    cases hx : f x with
    | true => simp
    | false => simpa using ih

lemma find?_decomp (h : l.find? f = some a) :
    ∃ l1 l2, l = l1 ++ a :: l2 ∧ ∀ x ∈ l1, f x = false := by
  induction l with
  | nil => simp [List.find?] at h
  | cons x xs ih =>
    rw [List.find?] at h
    cases hx : f x with
    | true =>
      rw [hx] at h; simp at h
      exact ⟨[], xs, by simp [h], by simp⟩
    | false =>
      rw [hx] at h
      rcases ih h with ⟨m1, m2, hm, hall⟩
      refine ⟨x :: m1, m2, by simp [hm], ?_⟩
      intro y hy
      rcases List.mem_cons.1 hy with rfl | hmem
      · exact hx
      · exact hall y hmem

lemma find?_of_mem_nodup (idf : α → Nat) (hnd : (l.map idf).Nodup)
    (ha : a ∈ l) (k : Nat) (hk : idf a = k) :
    l.find? (fun x => idf x == k) = some a := by
  induction l with
  | nil => simp at ha
  | cons x xs ih =>
    rw [List.map_cons, List.nodup_cons] at hnd
    rw [List.find?]
    rcases List.mem_cons.1 ha with rfl | hmem
    · simp [hk]
    · cases hx : (idf x == k : Bool) with
      | true =>
        exfalso
        have : idf x = k := by simpa using hx
        exact hnd.1 (this ▸ hk ▸ List.mem_map_of_mem idf hmem)
      | false => exact ih hnd.2 hmem

end ListLemmas

lemma liftResult_snd (r : ConnectResult × Store) : (liftResult r).2 = r.2 := by
  rcases r with ⟨c, s⟩
  cases c <;> rfl

lemma createGame_snd (s : Store) (uid t : Nat) :
    (createGame s uid t).2 =
      ⟨s.games ++ [⟨s.nextGameId, GameStatus.pending, some s.nextProgressId,
          none, t, none, none⟩],
       s.progresses ++ [newProgress s uid],
       s.gameQuestions, s.questions, s.users,
       s.nextProgressId + 1, s.nextGameId + 1⟩ := rfl

lemma connectToGame_snd_none (s : Store) (uid gid t : Nat)
    (h : drawQuestions s = none) :
    (connectToGame s uid gid t).2 =
      ⟨s.games, s.progresses ++ [newProgress s uid], s.gameQuestions,
       s.questions, s.users, s.nextProgressId + 1, s.nextGameId⟩ := by
  have h2 : drawQuestions (createProgress s uid).2 = none := h
  unfold connectToGame
  rw [h2]
  rfl

lemma connectToGame_snd_some (s : Store) (uid gid t : Nat) (qs : List Question)
    (h : drawQuestions s = some qs) :
    (connectToGame s uid gid t).2 =
      ⟨s.games.map (activateRow gid s.nextProgressId t),
       s.progresses ++ [newProgress s uid],
       s.gameQuestions ++ qs.enum.map (fun iq => ⟨gid, iq.2.id, iq.1⟩),
       s.questions, s.users, s.nextProgressId + 1, s.nextGameId⟩ := by
  have h2 : drawQuestions (createProgress s uid).2 = some qs := h
  unfold connectToGame
  rw [h2]
  rfl

lemma connectToGame_fst_none (s : Store) (uid gid t : Nat)
    (h : drawQuestions s = none) :
    (connectToGame s uid gid t).1 = ConnectResult.thrown := by
  have h2 : drawQuestions (createProgress s uid).2 = none := h
  unfold connectToGame
  rw [h2]

lemma connectToGame_fst_some (s : Store) (uid gid t : Nat) (qs : List Question)
    (h : drawQuestions s = some qs) :
    (connectToGame s uid gid t).1 =
      connectResultView (connectToGame s uid gid t).2 gid := by
  have h2 : drawQuestions (createProgress s uid).2 = some qs := h
  unfold connectToGame
  rw [h2]

lemma activateRow_id (gid pid t : Nat) (g : Game) :
    (activateRow gid pid t g).id = g.id := by
  unfold activateRow
  split <;> rfl

lemma activateRow_first (gid pid t : Nat) (g : Game) :
    (activateRow gid pid t g).firstPlayerProgressId = g.firstPlayerProgressId := by
  unfold activateRow
  split <;> rfl

lemma activateRow_of_ne {gid : Nat} (pid t : Nat) {g : Game} (h : g.id ≠ gid) :
    activateRow gid pid t g = g := by
  unfold activateRow
  rw [if_neg (by simpa using h)]

lemma activateRow_of_eq {gid : Nat} (pid t : Nat) {g : Game} (h : g.id = gid) :
    activateRow gid pid t g =
      { g with secondPlayerProgressId := some pid,
               startGameDate := some t,
               status := GameStatus.active } := by
  unfold activateRow
  rw [if_pos (by simpa using h)]

lemma map_activateRow_id (gid pid t : Nat) (l : List Game) :
    (l.map (activateRow gid pid t)).map Game.id = l.map Game.id := by
  rw [List.map_map]
  exact List.map_congr_left (fun g _ => activateRow_id gid pid t g)

section SnocHelpers

variable {β : Type} (idf : β → Nat) {l : List β} {n : Nat} {b : β}

lemma nodup_snoc_of_lt (hnd : (l.map idf).Nodup) (hlt : ∀ x ∈ l, idf x < n)
    (hb : idf b = n) : ((l ++ [b]).map idf).Nodup := by
  rw [List.map_append]
  refine List.Nodup.append hnd (by simp) ?_
  intro x hx hy
  rcases List.mem_map.1 hx with ⟨y, hy2, rfl⟩
  simp only [List.map_cons, List.map_nil, List.mem_singleton] at hy
  have h1 : idf y < n := hlt y hy2
  rw [hy, hb] at h1
  exact Nat.lt_irrefl n h1

lemma lt_snoc (hlt : ∀ x ∈ l, idf x < n) (hb : idf b = n) :
    ∀ x ∈ l ++ [b], idf x < n + 1 := by
  intro x hx
  rcases List.mem_append.1 hx with hmem | hmem
  · exact Nat.lt_succ_of_lt (hlt x hmem)
  · simp only [List.mem_singleton] at hmem
    rw [hmem, hb]
    exact Nat.lt_succ_self n

end SnocHelpers

/-- A progress link that resolves in `s` resolves to the same record after new
progresses are appended. -/
lemma lookupProgress_stable {s : Store} {pid : Nat} {p : Progress}
    (h : lookupProgress s pid = some p) (added : List Progress)
    (sNew : Store) (hNew : sNew.progresses = s.progresses ++ added) :
    lookupProgress sNew pid = some p := by
  unfold lookupProgress at h ⊢
  rw [hNew]
  exact find?_append_some h

lemma lookup_of_resolvable {s : Store} {pid : Nat}
    (h : ∃ p ∈ s.progresses, p.id = pid) :
    ∃ p, lookupProgress s pid = some p ∧ p.id = pid := by
  rcases h with ⟨p0, hmem, hid⟩
  have hf : ((fun q : Progress => q.id == pid) p0) = true := by simp [hid]
  rcases exists_find?_of_mem (f := fun q : Progress => q.id == pid) hmem hf
    with ⟨b, hb, hbp⟩
  exact ⟨b, hb, by simpa using hbp⟩

lemma inv_createGame {s : Store} (h : Inv s) (uid t : Nat) :
    Inv (createGame s uid t).2 := by
  rw [createGame_snd]
  constructor
  · exact nodup_snoc_of_lt Game.id h.gamesNodup h.gamesLt rfl
  · exact lt_snoc Game.id h.gamesLt rfl
  · exact nodup_snoc_of_lt Progress.id h.progNodup h.progLt rfl
  · exact lt_snoc Progress.id h.progLt rfl
  · intro g hg
    rcases List.mem_append.1 hg with hmem | hmem
    · exact h.firstSome g hmem
    · simp only [List.mem_singleton] at hmem
      rw [hmem]
      rfl
  · intro g hg
    rcases List.mem_append.1 hg with hmem | hmem
    · exact h.secondIff g hmem
    · simp only [List.mem_singleton] at hmem
      rw [hmem]
      simp
  · intro g hg pid hpid
    rcases List.mem_append.1 hg with hmem | hmem
    · rcases h.linksResolve g hmem pid hpid with ⟨p, hp, hpi⟩
      exact ⟨p, List.mem_append_left _ hp, hpi⟩
    · simp only [List.mem_singleton] at hmem
      rw [hmem] at hpid
      rcases hpid with hfst | hsnd
      · simp only [Option.some.injEq] at hfst
        exact ⟨newProgress s uid, List.mem_append_right _ (by simp), hfst⟩
      · exact absurd hsnd (by simp)
  · intro g hg hact pid1 pid2 p1 p2 h1 h2 hl1 hl2
    rcases List.mem_append.1 hg with hmem | hmem
    · rcases lookup_of_resolvable (h.linksResolve g hmem pid1 (Or.inl h1))
        with ⟨b1, hb1, _⟩
      rcases lookup_of_resolvable (h.linksResolve g hmem pid2 (Or.inr h2))
        with ⟨b2, hb2, _⟩
      have e1 : lookupProgress
          (⟨s.games ++ [⟨s.nextGameId, GameStatus.pending, some s.nextProgressId,
              none, t, none, none⟩],
            s.progresses ++ [newProgress s uid],
            s.gameQuestions, s.questions, s.users,
            s.nextProgressId + 1, s.nextGameId + 1⟩ : Store) pid1 = some b1 :=
        lookupProgress_stable hb1 [newProgress s uid] _ rfl
      have e2 : lookupProgress
          (⟨s.games ++ [⟨s.nextGameId, GameStatus.pending, some s.nextProgressId,
              none, t, none, none⟩],
            s.progresses ++ [newProgress s uid],
            s.gameQuestions, s.questions, s.users,
            s.nextProgressId + 1, s.nextGameId + 1⟩ : Store) pid2 = some b2 :=
        lookupProgress_stable hb2 [newProgress s uid] _ rfl
      rw [hl1] at e1
      rw [hl2] at e2
      cases e1
      cases e2
      exact h.activeDistinct g hmem hact pid1 pid2 p1 p2 h1 h2 hb1 hb2
    · simp only [List.mem_singleton] at hmem
      rw [hmem] at hact
      exact absurd hact (by simp)

section MoreFindLemmas

variable {α : Type} {f : α → Bool} {l : List α} {a : α}

lemma find?_pred (h : l.find? f = some a) : f a = true := by
  induction l with
  | nil => simp [List.find?] at h
  | cons x xs ih =>
    rw [List.find?] at h
    cases hx : f x with
    | true =>
      rw [hx] at h
      simp only [Option.some.injEq] at h
      rw [← h]
      exact hx
    | false =>
      rw [hx] at h
      exact ih h

lemma find?_mem (h : l.find? f = some a) : a ∈ l := by
  rcases find?_decomp h with ⟨l1, l2, rfl, _⟩
  exact List.mem_append_right l1 (List.mem_cons_self a l2)

lemma find?_eq_none_of_all (hall : ∀ x ∈ l, f x = false) : l.find? f = none := by
  induction l with
  | nil => rfl
  | cons x xs ih =>
    rw [List.find?, hall x (List.mem_cons_self x xs)]
    exact ih (fun y hy => hall y (List.mem_cons_of_mem x hy))

lemma find?_none_forall (h : l.find? f = none) : ∀ x ∈ l, f x = false := by
  induction l with
  | nil => intro x hx; simp at hx
  | cons y ys ih =>
    rw [List.find?] at h
    cases hy : f y with
    | true => rw [hy] at h; simp at h
    | false =>
      rw [hy] at h
      intro x hx
      rcases List.mem_cons.1 hx with rfl | hmem
      · exact hy
      · exact ih h x hmem

end MoreFindLemmas

lemma findOpenSlot_found {s : Store} {g0 : Game} {w : Option Nat}
    (h : getGameInPendingSecondPalyer s = some (g0, w)) :
    g0 ∈ s.games ∧ g0.status = GameStatus.pending ∧
      g0.firstPlayerProgressId.isSome = true := by
  unfold getGameInPendingSecondPalyer at h
  cases hf : s.games.find?
      (fun g => g.status == GameStatus.pending && g.firstPlayerProgressId.isSome) with
  | none => rw [hf] at h; simp at h
  | some g1 =>
    rw [hf] at h
    simp only [Option.some.injEq, Prod.mk.injEq] at h
    have hmem : g1 ∈ s.games := find?_mem hf
    have hpred := find?_pred hf
    simp only [Bool.and_eq_true, beq_iff_eq] at hpred
    rw [← h.1]
    exact ⟨hmem, hpred.1, hpred.2⟩

/-- If the admission gate rejects nobody named `uid`, then no progress that an
open (pending or active) game references can belong to `uid`. -/
lemma gate_false_user_ne {s : Store} {uid : Nat}
    (hgate : isUserInOpenGame s uid = false)
    {g : Game} (hg : g ∈ s.games)
    (hst : (g.status == GameStatus.pending || g.status == GameStatus.active) = true)
    {pid : Nat} {p : Progress}
    (hslot : g.firstPlayerProgressId = some pid ∨ g.secondPlayerProgressId = some pid)
    (hlook : lookupProgress s pid = some p) :
    p.userId ≠ uid := by
  intro heq
  have htrue : isUserInOpenGame s uid = true := by
    unfold isUserInOpenGame
    rw [List.any_eq_true]
    refine ⟨g, hg, ?_⟩
    rw [Bool.and_eq_true]
    refine ⟨hst, ?_⟩
    rw [Bool.or_eq_true]
    rcases hslot with h1 | h2
    · left
      simp [progressSlotHasUser, h1, hlook, heq]
    · right
      simp [progressSlotHasUser, h2, hlook, heq]
  rw [htrue] at hgate
  exact Bool.true_eq_false_eq_False hgate

/-- The freshly created progress is found by its id in any store whose progress
table is the old one with the new record appended. -/
lemma lookup_newProgress {s : Store} (h : Inv s) (uid : Nat)
    (sNew : Store) (hNew : sNew.progresses = s.progresses ++ [newProgress s uid]) :
    lookupProgress sNew s.nextProgressId = some (newProgress s uid) := by
  unfold lookupProgress
  rw [hNew]
  have hnone : s.progresses.find? (fun p => p.id == s.nextProgressId) = none := by
    refine find?_eq_none_of_all (fun p hp => ?_)
    simpa using Nat.ne_of_lt (h.progLt p hp)
  rw [find?_append_none hnone]
  simp [List.find?, newProgress]

/-- Player distinctness of active games is stable under appending fresh
progress rows (old links keep resolving to the same records). -/
lemma activeDistinct_stable {s : Store} (h : Inv s)
    (added : List Progress) (sNew : Store)
    (hNew : sNew.progresses = s.progresses ++ added) :
    ∀ g ∈ s.games, g.status = GameStatus.active →
    ∀ pid1 pid2 p1 p2, g.firstPlayerProgressId = some pid1 →
      g.secondPlayerProgressId = some pid2 →
      lookupProgress sNew pid1 = some p1 → lookupProgress sNew pid2 = some p2 →
      p1.userId ≠ p2.userId := by
  intro g hg hact pid1 pid2 p1 p2 h1 h2 hl1 hl2
  rcases lookup_of_resolvable (h.linksResolve g hg pid1 (Or.inl h1)) with ⟨b1, hb1, _⟩
  rcases lookup_of_resolvable (h.linksResolve g hg pid2 (Or.inr h2)) with ⟨b2, hb2, _⟩
  have e1 := lookupProgress_stable hb1 added sNew hNew
  have e2 := lookupProgress_stable hb2 added sNew hNew
  rw [hl1] at e1
  rw [hl2] at e2
  cases e1
  cases e2
  exact h.activeDistinct g hg hact pid1 pid2 p1 p2 h1 h2 hb1 hb2

lemma inv_connect_pending {s : Store} (h : Inv s) {g0 : Game} {w : Option Nat}
    {uid t : Nat}
    (hfind : getGameInPendingSecondPalyer s = some (g0, w))
    (hgate : isUserInOpenGame s uid = false) :
    Inv (connectToGame s uid g0.id t).2 := by
  obtain ⟨hg0mem, hg0pend, hg0first⟩ := findOpenSlot_found hfind
  cases hdraw : drawQuestions s with
  | none =>
    rw [connectToGame_snd_none _ _ _ _ hdraw]
    constructor
    · exact h.gamesNodup
    · exact h.gamesLt
    · exact nodup_snoc_of_lt Progress.id h.progNodup h.progLt rfl
    · exact lt_snoc Progress.id h.progLt rfl
    · exact h.firstSome
    · exact h.secondIff
    · intro g hg pid hpid
      rcases h.linksResolve g hg pid hpid with ⟨p, hp, hpi⟩
      exact ⟨p, List.mem_append_left _ hp, hpi⟩
    · exact activeDistinct_stable h [newProgress s uid] _ rfl
  | some qs =>
    rw [connectToGame_snd_some _ _ _ _ _ hdraw]
    constructor
    · rw [map_activateRow_id]
      exact h.gamesNodup
    · intro g hg
      rcases List.mem_map.1 hg with ⟨g1, hg1, rfl⟩
      rw [activateRow_id]
      exact h.gamesLt g1 hg1
    · exact nodup_snoc_of_lt Progress.id h.progNodup h.progLt rfl
    · exact lt_snoc Progress.id h.progLt rfl
    · intro g hg
      rcases List.mem_map.1 hg with ⟨g1, hg1, rfl⟩
      rw [activateRow_first]
      exact h.firstSome g1 hg1
    · intro g hg
      rcases List.mem_map.1 hg with ⟨g1, hg1, rfl⟩
      by_cases hid : g1.id = g0.id
      · rw [activateRow_of_eq _ _ hid]
        simp
      · rw [activateRow_of_ne _ _ hid]
        exact h.secondIff g1 hg1
    · intro g hg pid hpid
      rcases List.mem_map.1 hg with ⟨g1, hg1, rfl⟩
      by_cases hid : g1.id = g0.id
      · rw [activateRow_of_eq _ _ hid] at hpid
        rcases hpid with hfst | hsnd
        · simp only at hfst
          rcases h.linksResolve g1 hg1 pid (Or.inl hfst) with ⟨p, hp, hpi⟩
          exact ⟨p, List.mem_append_left _ hp, hpi⟩
        · simp only [Option.some.injEq] at hsnd
          exact ⟨newProgress s uid, List.mem_append_right _ (by simp), hsnd⟩
      · rw [activateRow_of_ne _ _ hid] at hpid
        rcases h.linksResolve g1 hg1 pid hpid with ⟨p, hp, hpi⟩
        exact ⟨p, List.mem_append_left _ hp, hpi⟩
    · intro g hg hact pid1 pid2 p1 p2 h1 h2 hl1 hl2
      rcases List.mem_map.1 hg with ⟨g1, hg1, rfl⟩
      by_cases hid : g1.id = g0.id
      · have hg1eq : g1 = g0 :=
          List.inj_on_of_nodup_map h.gamesNodup hg1 hg0mem hid
        subst hg1eq
        rw [activateRow_of_eq _ _ hid] at h1 h2
        simp only at h1
        simp only [Option.some.injEq] at h2
        have hlNew := lookup_newProgress h uid
          (⟨s.games.map (activateRow g1.id s.nextProgressId t),
            s.progresses ++ [newProgress s uid],
            s.gameQuestions ++ qs.enum.map (fun iq => ⟨g1.id, iq.2.id, iq.1⟩),
            s.questions, s.users, s.nextProgressId + 1, s.nextGameId⟩ : Store) rfl
        rw [← h2] at hl2
        rw [hlNew] at hl2
        cases hl2
        rcases lookup_of_resolvable (h.linksResolve g1 hg1 pid1 (Or.inl h1))
          with ⟨b1, hb1, _⟩
        have e1 := lookupProgress_stable hb1 [newProgress s uid]
          (⟨s.games.map (activateRow g1.id s.nextProgressId t),
            s.progresses ++ [newProgress s uid],
            s.gameQuestions ++ qs.enum.map (fun iq => ⟨g1.id, iq.2.id, iq.1⟩),
            s.questions, s.users, s.nextProgressId + 1, s.nextGameId⟩ : Store) rfl
        rw [hl1] at e1
        cases e1
        have hne := gate_false_user_ne hgate hg1
          (by rw [hg0pend]; rfl) (Or.inl h1) hb1
        simpa [newProgress] using hne
      · rw [activateRow_of_ne _ _ hid] at h1 h2 hact
        have := activeDistinct_stable h [newProgress s uid]
          (⟨s.games.map (activateRow g0.id s.nextProgressId t),
            s.progresses ++ [newProgress s uid],
            s.gameQuestions ++ qs.enum.map (fun iq => ⟨g0.id, iq.2.id, iq.1⟩),
            s.questions, s.users, s.nextProgressId + 1, s.nextGameId⟩ : Store) rfl
        exact this g1 hg1 hact pid1 pid2 p1 p2 h1 h2 hl1 hl2

lemma inv_createGameFlow {s : Store} (h : Inv s) (uid t : Nat) :
    Inv (createGameFlow s uid t).2 := by
  cases hg : isUserInOpenGame s uid with
  | true =>
    have e : (createGameFlow s uid t).2 = s := by
      unfold createGameFlow
      rw [hg]
      rfl
    rw [e]
    exact h
  | false =>
    have e : (createGameFlow s uid t).2 = (createGame s uid t).2 := by
      unfold createGameFlow
      rw [hg]
      simp [liftResult_snd]
    rw [e]
    exact inv_createGame h uid t

lemma inv_joinFlow {s : Store} (h : Inv s) (uid t : Nat) :
    Inv (joinFlow s uid t).2 := by
  cases hg : isUserInOpenGame s uid with
  | true =>
    have e : (joinFlow s uid t).2 = s := by
      unfold joinFlow
      rw [hg]
      rfl
    rw [e]
    exact h
  | false =>
    cases hf : getGameInPendingSecondPalyer s with
    | none =>
      have e : (joinFlow s uid t).2 = (createGame s uid t).2 := by
        unfold joinFlow
        rw [hg, hf]
        simp [liftResult_snd]
      rw [e]
      exact inv_createGame h uid t
    | some gp =>
      obtain ⟨g0, w⟩ := gp
      have e : (joinFlow s uid t).2 = (connectToGame s uid g0.id t).2 := by
        unfold joinFlow
        rw [hg, hf]
        simp [liftResult_snd]
      rw [e]
      exact inv_connect_pending h hf hg

lemma inv_init (pool : List Question) (users : List User) :
    Inv (initStore pool users) := by
  constructor <;> intros <;> simp_all [initStore]

lemma step_inv {s s2 : Store} (h : Inv s) (hs : Step s s2) : Inv s2 := by
  cases hs with
  | create uid t => exact inv_createGameFlow h uid t
  | join uid t => exact inv_joinFlow h uid t

lemma reachable_inv {s : Store} (h : Reachable s) : Inv s := by
  induction h with
  | init pool users => exact inv_init pool users
  | step s s2 hr hs ih => exact step_inv ih hs

/-- C1: refuted on the code under the stale-snapshot race.  Both legs are
certified (admission gate and open-slot search) against the common pre-race
snapshot `demoStore1` holding pending game 0; user 3's write executes after
user 2's activation has committed, so at the moment of that write game 0 is
already active with second player progress 1 bound — yet the unconditional
`UPDATE ... WHERE id = :id` lands anyway and rebinds the second player to
progress 2 and the start date to 12.  The write is not conditional on "still
pending and no second player at the moment of the write", and the active
target is not left unchanged. -/
theorem race_write_lands_on_active_game :
    isUserInOpenGame demoStore1 2 = false ∧
    isUserInOpenGame demoStore1 3 = false ∧
    (getGameInPendingSecondPalyer demoStore1).map (fun gp => gp.1.id) = some 0 ∧
    (lookupGame raceCall1.2 0).map Game.status = some GameStatus.active ∧
    (lookupGame raceCall1.2 0).map Game.secondPlayerProgressId = some (some 1) ∧
    (lookupGame raceCall2.2 0).map Game.secondPlayerProgressId = some (some 2) ∧
    (lookupGame raceCall2.2 0).map Game.startGameDate = some (some 12) := by
  decide

/-- C2: refuted on the code.  Two join attempts racing for the same pending
game 0 (both gates and the slot search evaluated against `demoStore1`, before
either write) both run to a successful response; the second silently
overwrites the first, so user 2's progress 1 ends up bound to no game, and
game 0 carries twice the configured number of question rows.  No attempt is
rejected or redirected into a retry. -/
theorem racing_joins_both_succeed :
    isUserInOpenGame demoStore1 2 = false ∧
    isUserInOpenGame demoStore1 3 = false ∧
    (getGameInPendingSecondPalyer demoStore1).map (fun gp => gp.1.id) = some 0 ∧
    raceCall1.1.isOk = true ∧
    raceCall2.1.isOk = true ∧
    (lookupGame raceCall2.2 0).map Game.secondPlayerProgressId = some (some 2) ∧
    raceCall2.2.games.filter
      (fun g => g.firstPlayerProgressId == some 1 ||
        g.secondPlayerProgressId == some 1) = [] ∧
    (raceCall2.2.gameQuestions.filter (fun q => q.gameId == 0)).length =
      2 * gameQuestionsCount := by
  decide

/-- C6: refuted on the code.  When the Question Selector fails
(`InsufficientQuestions`: two-question pool), `connectToGame` rethrows from
its catch block without undoing the progress insert that already ran: the
joining user's progress row persists as an orphan and nothing is rolled
back. -/
theorem draw_failure_leaves_orphan_progress :
    orphanCall.1 = ConnectResult.thrown ∧
    orphanCall.2.progresses ≠ demoStoreSmallPool.progresses ∧
    (∃ p ∈ orphanCall.2.progresses, p.userId = 2 ∧
      ∀ g ∈ orphanCall.2.games,
        g.firstPlayerProgressId ≠ some p.id ∧
        g.secondPlayerProgressId ≠ some p.id) ∧
    orphanCall.2.games = demoStoreSmallPool.games := by
  decide

/-- C10, counterexample: when the post-update re-read finds nothing the call
does return null with the progress created and the questions assigned, but the
claim's remaining conjunct is false: no game row with the target id exists, so
no row "was already updated to active" — the update statement matched zero
rows. -/
theorem connect_null_without_active_update_cex :
    ghostCall.1 = ConnectResult.nullGame ∧
    (∃ p ∈ ghostCall.2.progresses, p.userId = 2) ∧
    (ghostCall.2.gameQuestions.filter (fun q => q.gameId == 99)).length =
      gameQuestionsCount ∧
    ∀ g ∈ ghostCall.2.games, g.id ≠ 99 := by
  decide

/-- C10 (amended): `connectToGame` can return null after its state mutations
have already been applied: when the target game row is absent, the re-read
finds nothing and the call returns null even though the joining player's
progress was created and the question associations were persisted; the update
statement matched no row, so the game table itself is unchanged — a none
result from joinGame does not imply the store is unchanged. -/
theorem connect_null_still_mutates (s : Store) (uid gid t : Nat)
    (habs : lookupGame s gid = none)
    (hpool : gameQuestionsCount ≤ s.questions.length) :
    (connectToGame s uid gid t).1 = ConnectResult.nullGame ∧
    (connectToGame s uid gid t).2.progresses = s.progresses ++ [newProgress s uid] ∧
    (connectToGame s uid gid t).2.gameQuestions =
      s.gameQuestions ++ (s.questions.take gameQuestionsCount).enum.map
        (fun iq => ⟨gid, iq.2.id, iq.1⟩) ∧
    (connectToGame s uid gid t).2.games = s.games := by
  have hdraw : drawQuestions s = some (s.questions.take gameQuestionsCount) := by
    unfold drawQuestions
    rw [if_pos hpool]
  have habs2 : s.games.find? (fun g => g.id == gid) = none := habs
  have hall : ∀ g ∈ s.games, g.id ≠ gid := by
    intro g hg
    simpa using find?_none_forall habs2 g hg
  have hgames : (connectToGame s uid gid t).2.games = s.games := by
    rw [connectToGame_snd_some _ _ _ _ _ hdraw]
    show s.games.map (activateRow gid s.nextProgressId t) = s.games
    calc s.games.map (activateRow gid s.nextProgressId t)
        = s.games.map id :=
          List.map_congr_left (fun g hg => activateRow_of_ne _ _ (hall g hg))
      _ = s.games := List.map_id s.games
  have hlook : lookupGame (connectToGame s uid gid t).2 gid = none := by
    unfold lookupGame
    rw [hgames]
    exact habs
  have hext : getExtendedGameById (connectToGame s uid gid t).2 gid = none := by
    unfold getExtendedGameById
    rw [hlook]
  refine ⟨?_, ?_, ?_, hgames⟩
  · rw [connectToGame_fst_some _ _ _ _ _ hdraw]
    unfold connectResultView
    rw [hext]
  · rw [connectToGame_snd_some _ _ _ _ _ hdraw]
  · rw [connectToGame_snd_some _ _ _ _ _ hdraw]

/-- C10 witness: the amended theorem instantiated at the ghost join of
`demoStore1` against the absent game id 99. -/
theorem connect_null_still_mutates_witness :
    (connectToGame demoStore1 2 99 11).1 = ConnectResult.nullGame ∧
    (connectToGame demoStore1 2 99 11).2.progresses =
      demoStore1.progresses ++ [newProgress demoStore1 2] ∧
    (connectToGame demoStore1 2 99 11).2.gameQuestions =
      demoStore1.gameQuestions ++
        (demoStore1.questions.take gameQuestionsCount).enum.map
          (fun iq => ⟨99, iq.2.id, iq.1⟩) ∧
    (connectToGame demoStore1 2 99 11).2.games = demoStore1.games :=
  connect_null_still_mutates demoStore1 2 99 11 (by decide) (by decide)

/-- C3: at the service boundary, a create request by a user who already has a
pending or active game is rejected with `ParticipationConflict` and changes
nothing; in particular, after a successful `createGame` the same user's
immediately following `createGame` is rejected and no second pending game is
created. -/
theorem createGame_twice_conflict (s : Store) (uid t t2 : Nat)
    (hr : Reachable s)
    (hok : (createGameFlow s uid t).1.isOk = true) :
    (∀ u t3, isUserInOpenGame s u = true →
      createGameFlow s u t3 = (FlowResult.conflict, s)) ∧
    isUserInOpenGame (createGameFlow s uid t).2 uid = true ∧
    createGameFlow (createGameFlow s uid t).2 uid t2 =
      (FlowResult.conflict, (createGameFlow s uid t).2) := by
  have hinv := reachable_inv hr
  have hgatefact : ∀ (s4 : Store) (u t3 : Nat), isUserInOpenGame s4 u = true →
      createGameFlow s4 u t3 = (FlowResult.conflict, s4) := by
    intro s4 u t3 hu
    unfold createGameFlow
    rw [hu]
    rfl
  cases hgate : isUserInOpenGame s uid with
  | true =>
    rw [hgatefact s uid t hgate] at hok
    simp [FlowResult.isOk] at hok
  | false =>
    have hsnd : (createGameFlow s uid t).2 = (createGame s uid t).2 := by
      unfold createGameFlow
      rw [hgate]
      simp [liftResult_snd]
    have hlookNew : lookupProgress (createGame s uid t).2 s.nextProgressId =
        some (newProgress s uid) := by
      refine lookup_newProgress hinv uid _ ?_
      rw [createGame_snd]
    have hgate2 : isUserInOpenGame (createGame s uid t).2 uid = true := by
      unfold isUserInOpenGame
      rw [List.any_eq_true]
      refine ⟨⟨s.nextGameId, GameStatus.pending, some s.nextProgressId,
        none, t, none, none⟩, ?_, ?_⟩
      · rw [createGame_snd]
        exact List.mem_append_right _ (by simp)
      · rw [Bool.and_eq_true, Bool.or_eq_true, Bool.or_eq_true]
        refine ⟨Or.inl rfl, Or.inl ?_⟩
        simp [progressSlotHasUser, hlookNew, newProgress]
    refine ⟨hgatefact s, ?_, ?_⟩
    · rw [hsnd]
      exact hgate2
    · rw [hsnd]
      exact hgatefact _ uid t2 hgate2

/-- C3 witness: user 1 creates a game from the empty store and the second
create request conflicts. -/
theorem createGame_twice_conflict_witness :
    (∀ u t3, isUserInOpenGame (initStore pool5 demoUsers) u = true →
      createGameFlow (initStore pool5 demoUsers) u t3 =
        (FlowResult.conflict, initStore pool5 demoUsers)) ∧
    isUserInOpenGame (createGameFlow (initStore pool5 demoUsers) 1 10).2 1 = true ∧
    createGameFlow (createGameFlow (initStore pool5 demoUsers) 1 10).2 1 20 =
      (FlowResult.conflict, (createGameFlow (initStore pool5 demoUsers) 1 10).2) :=
  createGame_twice_conflict (initStore pool5 demoUsers) 1 10 20
    (Reachable.init pool5 demoUsers) (by decide)

/-- C4: after every successful `connectToGame` on a pending game with no
question rows yet, the joining user's progress record exists with the fresh
id, the game row is active with `startGameDate` set and
`secondPlayerProgressId` equal to that fresh progress id, and the game carries
exactly the configured count of question rows with order values 0 through
count-1. -/
theorem connect_success_postconditions (s : Store) (uid gid t : Nat) (g : Game)
    (hg : lookupGame s gid = some g)
    (hpend : g.status = GameStatus.pending)
    (hnoq : s.gameQuestions.filter (fun q => q.gameId == gid) = [])
    (hok : (connectToGame s uid gid t).1.isOk = true) :
    (∃ p ∈ (connectToGame s uid gid t).2.progresses,
        p.userId = uid ∧ p.id = s.nextProgressId) ∧
    (∃ g2, lookupGame (connectToGame s uid gid t).2 gid = some g2 ∧
        g2.status = GameStatus.active ∧
        g2.startGameDate = some t ∧
        g2.secondPlayerProgressId = some s.nextProgressId) ∧
    ((connectToGame s uid gid t).2.gameQuestions.filter
        (fun q => q.gameId == gid)).map GameQuestion.order =
      List.range gameQuestionsCount := by
  cases hdraw : drawQuestions s with
  | none =>
    rw [connectToGame_fst_none _ _ _ _ hdraw] at hok
    simp [ConnectResult.isOk] at hok
  | some qs =>
    have hqs : qs = s.questions.take gameQuestionsCount ∧
        gameQuestionsCount ≤ s.questions.length := by
      unfold drawQuestions at hdraw
      by_cases hle : gameQuestionsCount ≤ s.questions.length
      · rw [if_pos hle] at hdraw
        exact ⟨by simpa using hdraw.symm, hle⟩
      · rw [if_neg hle] at hdraw
        simp at hdraw
    have hlen : qs.length = gameQuestionsCount := by
      rw [hqs.1, List.length_take]
      exact Nat.min_eq_left hqs.2
    have hgid : g.id = gid := by simpa using find?_pred hg
    refine ⟨?_, ?_, ?_⟩
    · rw [connectToGame_snd_some _ _ _ _ _ hdraw]
      exact ⟨newProgress s uid, List.mem_append_right _ (by simp), rfl, rfl⟩
    · rw [connectToGame_snd_some _ _ _ _ _ hdraw]
      refine ⟨activateRow gid s.nextProgressId t g, ?_, ?_, ?_, ?_⟩
      · show (s.games.map (activateRow gid s.nextProgressId t)).find?
            (fun x => x.id == gid) = some (activateRow gid s.nextProgressId t g)
        rw [find?_map_comm (fun x => by rw [activateRow_id]) s.games]
        rw [show s.games.find? (fun x => x.id == gid) = some g from hg]
        rfl
      · rw [activateRow_of_eq _ _ hgid]
      · rw [activateRow_of_eq _ _ hgid]
      · rw [activateRow_of_eq _ _ hgid]
    · rw [connectToGame_snd_some _ _ _ _ _ hdraw]
      show ((s.gameQuestions ++
          qs.enum.map (fun iq => (⟨gid, iq.2.id, iq.1⟩ : GameQuestion))).filter
            (fun q => q.gameId == gid)).map GameQuestion.order =
        List.range gameQuestionsCount
      rw [List.filter_append, hnoq, List.nil_append]
      have hself : (qs.enum.map (fun iq => (⟨gid, iq.2.id, iq.1⟩ : GameQuestion))).filter
          (fun q => q.gameId == gid) =
          qs.enum.map (fun iq => (⟨gid, iq.2.id, iq.1⟩ : GameQuestion)) := by
        refine List.filter_eq_self.2 ?_
        intro a ha
        rcases List.mem_map.1 ha with ⟨iq, _, rfl⟩
        simp
      rw [hself, List.map_map]
      show qs.enum.map Prod.fst = List.range gameQuestionsCount
      rw [List.enum_map_fst qs, hlen]

/-- C4 witness: user 2 joins the pending game 0 of `demoStore1`. -/
theorem connect_success_postconditions_witness :
    (∃ p ∈ (connectToGame demoStore1 2 0 11).2.progresses,
        p.userId = 2 ∧ p.id = demoStore1.nextProgressId) ∧
    (∃ g2, lookupGame (connectToGame demoStore1 2 0 11).2 0 = some g2 ∧
        g2.status = GameStatus.active ∧
        g2.startGameDate = some 11 ∧
        g2.secondPlayerProgressId = some demoStore1.nextProgressId) ∧
    ((connectToGame demoStore1 2 0 11).2.gameQuestions.filter
        (fun q => q.gameId == 0)).map GameQuestion.order =
      List.range gameQuestionsCount :=
  connect_success_postconditions demoStore1 2 0 11
    ⟨0, GameStatus.pending, some 0, none, 10, none, none⟩
    (by decide) (by decide) (by decide) (by decide)

/-- C5: in every state reachable via createGame and joinGame requests, a
game's `secondPlayerProgressId` is non-null exactly when its status is active
or finished, and every game (in particular every pending one) has its first
player progress bound. -/
theorem second_player_iff_active (s : Store) (hr : Reachable s) :
    ∀ g ∈ s.games,
      (g.secondPlayerProgressId ≠ none ↔
        (g.status = GameStatus.active ∨ g.status = GameStatus.finished)) ∧
      g.firstPlayerProgressId ≠ none := by
  have h := reachable_inv hr
  intro g hg
  constructor
  · rw [← Option.isSome_iff_ne_none]
    exact h.secondIff g hg
  · rw [← Option.isSome_iff_ne_none]
    exact h.firstSome g hg

/-- C5 witness: the invariant instantiated at the active game 0 of the
reachable store in which the game has been created and joined. -/
theorem second_player_iff_active_witness :
    ((⟨0, GameStatus.active, some 0, some 1, 10, some 11, none⟩ : Game).secondPlayerProgressId
        ≠ none ↔
      ((⟨0, GameStatus.active, some 0, some 1, 10, some 11, none⟩ : Game).status
          = GameStatus.active ∨
        (⟨0, GameStatus.active, some 0, some 1, 10, some 11, none⟩ : Game).status
          = GameStatus.finished)) ∧
    (⟨0, GameStatus.active, some 0, some 1, 10, some 11, none⟩ : Game).firstPlayerProgressId
      ≠ none :=
  second_player_iff_active demoStore2
    (Reachable.step demoStore1 demoStore2
      (Reachable.step (initStore pool5 demoUsers) demoStore1
        (Reachable.init pool5 demoUsers)
        (Step.create (initStore pool5 demoUsers) 1 10))
      (Step.join demoStore1 2 11))
    ⟨0, GameStatus.active, some 0, some 1, 10, some 11, none⟩ (by decide)

/-- C7: the determinism conjunct is refuted as a program property.  The
source query has no ORDER BY, so the selected row is a function of the
database's physical row order, not of the stored data: the same two open
pending games held in the two storage orders yield different selections, and
in the second order the query returns the newer game, not the oldest.  (The
remaining conjuncts do hold of the query: it returns at most one row, filtered
on pending status and a non-null first player link.) -/
theorem open_slot_selection_is_row_order_dependent :
    rowOrderStore2.games.Perm rowOrderStore1.games ∧
    (getGameInPendingSecondPalyer rowOrderStore1).map (fun gp => gp.1.id) =
      some 0 ∧
    (getGameInPendingSecondPalyer rowOrderStore2).map (fun gp => gp.1.id) =
      some 1 ∧
    (getGameInPendingSecondPalyer rowOrderStore2).map (fun gp => gp.1.createdAt) =
      some 6 ∧
    twoPendingA.createdAt < twoPendingB.createdAt := by
  decide

/-- C8: in every reachable state, the two players of an active game differ:
both progress links resolve and the owning users are distinct, so the join
path never binds a user as second player of their own pending game. -/
theorem active_game_players_differ (s : Store) (g : Game)
    (hr : Reachable s) (hg : g ∈ s.games) (hact : g.status = GameStatus.active) :
    ∃ pid1 pid2 p1 p2,
      g.firstPlayerProgressId = some pid1 ∧
      g.secondPlayerProgressId = some pid2 ∧
      lookupProgress s pid1 = some p1 ∧
      lookupProgress s pid2 = some p2 ∧
      p1.userId ≠ p2.userId := by
  have h := reachable_inv hr
  obtain ⟨pid1, h1⟩ := Option.isSome_iff_exists.1 (h.firstSome g hg)
  obtain ⟨pid2, h2⟩ := Option.isSome_iff_exists.1 ((h.secondIff g hg).2 (Or.inl hact))
  obtain ⟨p1, hl1, _⟩ := lookup_of_resolvable (h.linksResolve g hg pid1 (Or.inl h1))
  obtain ⟨p2, hl2, _⟩ := lookup_of_resolvable (h.linksResolve g hg pid2 (Or.inr h2))
  exact ⟨pid1, pid2, p1, p2, h1, h2, hl1, hl2,
    h.activeDistinct g hg hact pid1 pid2 p1 p2 h1 h2 hl1 hl2⟩

/-- C8 witness: the active game of `demoStore2` binds users 1 and 2, which
differ. -/
theorem active_game_players_differ_witness :
    ∃ pid1 pid2 p1 p2,
      (⟨0, GameStatus.active, some 0, some 1, 10, some 11, none⟩ : Game).firstPlayerProgressId
        = some pid1 ∧
      (⟨0, GameStatus.active, some 0, some 1, 10, some 11, none⟩ : Game).secondPlayerProgressId
        = some pid2 ∧
      lookupProgress demoStore2 pid1 = some p1 ∧
      lookupProgress demoStore2 pid2 = some p2 ∧
      p1.userId ≠ p2.userId :=
  active_game_players_differ demoStore2
    ⟨0, GameStatus.active, some 0, some 1, 10, some 11, none⟩
    (Reachable.step demoStore1 demoStore2
      (Reachable.step (initStore pool5 demoUsers) demoStore1
        (Reachable.init pool5 demoUsers)
        (Step.create (initStore pool5 demoUsers) 1 10))
      (Step.join demoStore1 2 11))
    (by decide) (by decide)

lemma filter_eq_nil_of_all {α : Type} {f : α → Bool} {l : List α}
    (h : ∀ x ∈ l, f x = false) : l.filter f = [] := by
  induction l with
  | nil => rfl
  | cons x xs ih =>
    simp [List.filter_cons, h x (List.mem_cons_self x xs),
      ih (fun y hy => h y (List.mem_cons_of_mem x hy))]

/-- The sorted question rows of the extended read depend only on the question
table restricted to the game and on the presence of the game row. -/
lemma ext_questions_eq {s s2 : Store} {gid : Nat} {g1 g2 : Game}
    (hq : s2.gameQuestions.filter (fun q => q.gameId == gid) =
          s.gameQuestions.filter (fun q => q.gameId == gid))
    (h1 : lookupGame s gid = some g1)
    (h2 : lookupGame s2 gid = some g2) :
    (getExtendedGameById s2 gid).map (fun eg => sortByOrder eg.questionRows) =
      (getExtendedGameById s gid).map (fun eg => sortByOrder eg.questionRows) := by
  unfold getExtendedGameById
  rw [h1, h2]
  simp [hq]

/-- C9: once assigned, a game's question sequence is immutable: across any
further matchmaking step from a reachable state, the question rows of an
already active game are unchanged, and the extended read (`getExtended`, the
same function for both players) keeps returning the same rows sorted by the
`order` field. -/
theorem question_sequence_immutable (s s2 : Store) (g : Game)
    (hr : Reachable s) (hst : Step s s2)
    (hg : g ∈ s.games) (hact : g.status = GameStatus.active) :
    s2.gameQuestions.filter (fun q => q.gameId == g.id) =
      s.gameQuestions.filter (fun q => q.gameId == g.id) ∧
    (getExtendedGameById s2 g.id).map (fun eg => sortByOrder eg.questionRows) =
      (getExtendedGameById s g.id).map (fun eg => sortByOrder eg.questionRows) := by
  have hinv := reachable_inv hr
  obtain ⟨g1, hg1, hg1p⟩ :=
    exists_find?_of_mem (f := fun x : Game => x.id == g.id) hg (by simp)
  cases hst with
  | create uid t =>
    cases hgate : isUserInOpenGame s uid with
    | true =>
      have e : (createGameFlow s uid t).2 = s := by
        unfold createGameFlow
        rw [hgate]
        rfl
      rw [e]
      exact ⟨rfl, rfl⟩
    | false =>
      have e : (createGameFlow s uid t).2 = (createGame s uid t).2 := by
        unfold createGameFlow
        rw [hgate]
        simp [liftResult_snd]
      have hqe : (createGame s uid t).2.gameQuestions = s.gameQuestions := by
        rw [createGame_snd]
      have h2 : lookupGame (createGame s uid t).2 g.id = some g1 := by
        unfold lookupGame
        rw [createGame_snd]
        exact find?_append_some hg1
      rw [e]
      exact ⟨by rw [hqe], ext_questions_eq (by rw [hqe]) hg1 h2⟩
  | join uid t =>
    cases hgate : isUserInOpenGame s uid with
    | true =>
      have e : (joinFlow s uid t).2 = s := by
        unfold joinFlow
        rw [hgate]
        rfl
      rw [e]
      exact ⟨rfl, rfl⟩
    | false =>
      cases hf : getGameInPendingSecondPalyer s with
      | none =>
        have e : (joinFlow s uid t).2 = (createGame s uid t).2 := by
          unfold joinFlow
          rw [hgate, hf]
          simp [liftResult_snd]
        have hqe : (createGame s uid t).2.gameQuestions = s.gameQuestions := by
          rw [createGame_snd]
        have h2 : lookupGame (createGame s uid t).2 g.id = some g1 := by
          unfold lookupGame
          rw [createGame_snd]
          exact find?_append_some hg1
        rw [e]
        exact ⟨by rw [hqe], ext_questions_eq (by rw [hqe]) hg1 h2⟩
      | some gp =>
        obtain ⟨g0, w⟩ := gp
        have e : (joinFlow s uid t).2 = (connectToGame s uid g0.id t).2 := by
          unfold joinFlow
          rw [hgate, hf]
          simp [liftResult_snd]
        obtain ⟨hg0mem, hg0pend, _⟩ := findOpenSlot_found hf
        have hne : g0.id ≠ g.id := by
          intro hid
          have hgg : g0 = g :=
            List.inj_on_of_nodup_map hinv.gamesNodup hg0mem hg hid
          rw [hgg, hact] at hg0pend
          exact absurd hg0pend (by simp)
        cases hdraw : drawQuestions s with
        | none =>
          have hqe : (connectToGame s uid g0.id t).2.gameQuestions =
              s.gameQuestions := by
            rw [connectToGame_snd_none _ _ _ _ hdraw]
          have h2 : lookupGame (connectToGame s uid g0.id t).2 g.id = some g1 := by
            unfold lookupGame
            rw [connectToGame_snd_none _ _ _ _ hdraw]
            exact hg1
          rw [e]
          exact ⟨by rw [hqe], ext_questions_eq (by rw [hqe]) hg1 h2⟩
        | some qs =>
          have hqe : (connectToGame s uid g0.id t).2.gameQuestions.filter
              (fun q => q.gameId == g.id) =
              s.gameQuestions.filter (fun q => q.gameId == g.id) := by
            rw [connectToGame_snd_some _ _ _ _ _ hdraw]
            show (s.gameQuestions ++
                qs.enum.map (fun iq => (⟨g0.id, iq.2.id, iq.1⟩ : GameQuestion))).filter
                  (fun q => q.gameId == g.id) = _
            rw [List.filter_append]
            have hbatch : (qs.enum.map
                (fun iq => (⟨g0.id, iq.2.id, iq.1⟩ : GameQuestion))).filter
                  (fun q => q.gameId == g.id) = [] := by
              refine filter_eq_nil_of_all ?_
              intro a ha
              rcases List.mem_map.1 ha with ⟨iq, _, rfl⟩
              simpa using hne
            rw [hbatch, List.append_nil]
          have h2 : lookupGame (connectToGame s uid g0.id t).2 g.id =
              some (activateRow g0.id s.nextProgressId t g1) := by
            unfold lookupGame
            rw [connectToGame_snd_some _ _ _ _ _ hdraw]
            show (s.games.map (activateRow g0.id s.nextProgressId t)).find?
                (fun x => x.id == g.id) = _
            rw [find?_map_comm (fun x => by rw [activateRow_id]) s.games, hg1]
            rfl
          rw [e]
          exact ⟨hqe, ext_questions_eq hqe hg1 h2⟩

/-- C9 witness: a further create request by user 5 leaves the question rows of
the active game 0 of `demoStore2` untouched. -/
theorem question_sequence_immutable_witness :
    (createGameFlow demoStore2 5 20).2.gameQuestions.filter
        (fun q => q.gameId ==
          (⟨0, GameStatus.active, some 0, some 1, 10, some 11, none⟩ : Game).id) =
      demoStore2.gameQuestions.filter
        (fun q => q.gameId ==
          (⟨0, GameStatus.active, some 0, some 1, 10, some 11, none⟩ : Game).id) ∧
    (getExtendedGameById (createGameFlow demoStore2 5 20).2
        (⟨0, GameStatus.active, some 0, some 1, 10, some 11, none⟩ : Game).id).map
          (fun eg => sortByOrder eg.questionRows) =
      (getExtendedGameById demoStore2
        (⟨0, GameStatus.active, some 0, some 1, 10, some 11, none⟩ : Game).id).map
          (fun eg => sortByOrder eg.questionRows) :=
  question_sequence_immutable demoStore2 (createGameFlow demoStore2 5 20).2
    ⟨0, GameStatus.active, some 0, some 1, 10, some 11, none⟩
    (Reachable.step demoStore1 demoStore2
      (Reachable.step (initStore pool5 demoUsers) demoStore1
        (Reachable.init pool5 demoUsers)
        (Step.create (initStore pool5 demoUsers) 1 10))
      (Step.join demoStore1 2 11))
    (Step.create demoStore2 5 20)
    (by decide) (by decide)

end QuizGame
